import Mathlib

/-!
Verification development for the OCR table-of-contents module
(`pageindex/ocr_utils.py`).

The Python module is shallowly embedded below.  Python strings are modelled
as Lean `String` (a list of characters); Python dictionaries with optional
keys are modelled as structures with `Option` fields; a Python function that
may raise `IndexError` is modelled as returning an `Option`.  The external
token counter (`tiktoken`) is modelled as an opaque parameter
`tok : String → Nat`.
-/

set_option autoImplicit false

/-! ### Python string primitives

These model the exact Python string operations used by the module:
`str.strip`, `str.lower`, `str.startswith`, the `in` containment test,
`str.split()` (no separator: split on whitespace runs, dropping empties),
and `re.sub` patterns over the ASCII whitespace class. -/

/-- ASCII whitespace, as matched by Python's `str.split()` / `str.strip()`
and the regex class `\s` (space, tab, newline, return, form feed,
vertical tab). -/
def pyIsSpace (c : Char) : Bool :=
  c = ' ' || c = '\t' || c = '\n' || c = '\r' || c = '\x0b' || c = '\x0c'

/-- Python `str.strip()`: drop leading and trailing whitespace. -/
def pyStrip (s : String) : String :=
  String.mk (((s.data.dropWhile pyIsSpace).reverse.dropWhile pyIsSpace).reverse)

/-- Python `str.lower()` (restricted to the ASCII letters the model uses). -/
def pyLower (s : String) : String :=
  String.mk (s.data.map Char.toLower)

/-- Python `str.startswith(pre)`. -/
def pyStartsWith (s pre : String) : Bool :=
  pre.data.isPrefixOf s.data

/-- Python containment `needle in hay` (contiguous substring; the empty
string is contained in everything). -/
def pyContains (hay needle : String) : Bool :=
  (List.range (hay.data.length + 1)).any
    (fun i => needle.data.isPrefixOf (hay.data.drop i))

/-- Helper for `pySplit`: walk the characters, accumulating the current
(reversed) word. -/
def pySplitAux : List Char → List Char → List String
  | [], cur => if cur.isEmpty then [] else [String.mk cur.reverse]
  | c :: rest, cur =>
    if pyIsSpace c then
      if cur.isEmpty then pySplitAux rest []
      else String.mk cur.reverse :: pySplitAux rest []
    else pySplitAux rest (c :: cur)

/-- Python `str.split()` with no argument: split on runs of whitespace,
discarding empty fragments (`"".split() == []`). -/
def pySplit (s : String) : List String :=
  pySplitAux s.data []

/-- Helper for `collapseWs`: the flag records whether the previous kept
character position was inside a whitespace run. -/
def collapseWsAux : Bool → List Char → List Char
  | _, [] => []
  | prevWs, c :: rest =>
    if pyIsSpace c then
      if prevWs then collapseWsAux true rest
      else ' ' :: collapseWsAux true rest
    else c :: collapseWsAux false rest

/-- Python `re.sub(r'\s+', ' ', s)`: replace every whitespace run by one
space. -/
def collapseWs (s : String) : String :=
  String.mk (collapseWsAux false s.data)

/-- CPython `list.__getitem__` with an integer index: non-negative indices
address from the front, indices in `[-len, -1]` address from the back, and
anything else raises `IndexError` (modelled as `none`). -/
def pyListGet {α : Type} (l : List α) (i : Int) : Option α :=
  if 0 ≤ i then l[i.toNat]?
  else if -(l.length : Int) ≤ i then l[((l.length : Int) + i).toNat]?
  else none

/-! ### Data model

`PageData` is one page object of the OCR JSON: an optional 0-based
`page_no` and an optional `full_layout_info` list.  `LayoutItem` is one
layout fragment with optional `text`, `bbox` and `category` keys. -/

structure LayoutItem where
  text : Option String
  bbox : Option (List Int)
  category : Option String
deriving Repr, DecidableEq

structure PageData where
  page_no : Option Int
  full_layout_info : Option (List LayoutItem)
deriving Repr, DecidableEq

/-- A header record produced by `extract_section_headers_with_bbox`. -/
structure HeaderRecord where
  page_no : Int
  text : String
  bbox : List Int
  category : String
  physical_index : Int
deriving Repr, DecidableEq

/-- A TOC node produced by `detect_toc_from_headers`.  The Python dict key
`structure` is spelled `structure_` (Lean keyword); `parent_section` is
`none` when the key is absent. -/
structure TocItem where
  structure_ : Option String
  title : String
  physical_index : Int
  bbox : List Int
  page_no : Int
  level : Nat
  parent_section : Option Nat
deriving Repr, DecidableEq

/-- Result of `detect_toc_from_headers`. -/
structure TocDetectResult where
  toc_items : List TocItem
  has_structure : Bool
deriving Repr, DecidableEq

/-- A TOC entry as consumed and produced by `enhance_toc_with_bbox`
(`physical_index`, `title`, `bbox`, `page_no` all optional keys). -/
structure TocEntry where
  physical_index : Option Int
  title : Option String
  bbox : Option (List Int)
  page_no : Option Int
deriving Repr, DecidableEq

/-! ### Source functions -/

/-- Loop body of `extract_text_from_ocr_page`: keep `item['text'].strip()`
when the `text` key is present and truthy after stripping. -/
def extractTextStep (acc : List String) (item : LayoutItem) : List String :=
  match item.text with
  | some t => if pyStrip t ≠ "" then acc ++ [pyStrip t] else acc
  | none => acc

/-- `extract_text_from_ocr_page(page_data)`: collect `item['text'].strip()`
for every layout item whose `text` key is present and non-empty after
stripping, in item order, and join with a newline.  A missing
`full_layout_info` key yields the empty string. -/
def extract_text_from_ocr_page (page_data : PageData) : String :=
  let texts : List String :=
    match page_data.full_layout_info with
    | some items => items.foldl extractTextStep []
    | none => []
  String.intercalate "\n" texts

/-- `get_page_tokens_from_ocr(ocr_results, model)`: one `(page_text,
token_count)` pair per page.  The `tiktoken` encoder for the chosen model
is the opaque counter `tok`. -/
def get_page_tokens_from_ocr (tok : String → Nat) (ocr_results : List PageData) :
    List (String × Nat) :=
  ocr_results.map (fun page_data =>
    let page_text := extract_text_from_ocr_page page_data
    (page_text, tok page_text))

/-- Inner loop body of `extract_section_headers_with_bbox`: append a header
record when the item has a `category` containing `"Section-header"` plus
`text` and `bbox` keys. -/
def sectionHeaderStep (page_no : Int) (headers : List HeaderRecord)
    (item : LayoutItem) : List HeaderRecord :=
  match item.category, item.text, item.bbox with
  | some cat, some t, some b =>
    if pyContains cat "Section-header" then
      headers ++ [{ page_no := page_no, text := pyStrip t, bbox := b,
                    category := cat, physical_index := page_no + 1 }]
    else headers
  | _, _, _ => headers

/-- Per-page body of `extract_section_headers_with_bbox`, with
`page_no = page_data.get('page_no', 0)`. -/
def pageHeadersStep (headers : List HeaderRecord) (page_data : PageData) :
    List HeaderRecord :=
  let page_no := page_data.page_no.getD 0
  match page_data.full_layout_info with
  | some items => items.foldl (sectionHeaderStep page_no) headers
  | none => headers

/-- `extract_section_headers_with_bbox(ocr_results)`: scan every page and
every layout item in order. -/
def extract_section_headers_with_bbox (ocr_results : List PageData) :
    List HeaderRecord :=
  ocr_results.foldl pageHeadersStep []

/-- `re.sub(r'^#+\s*', '', text).strip()`: remove a leading run of `#`
followed by a whitespace run, then strip.  (When `text` does not start with
`#` the regex does not match and only the final strip acts; both cases are
the composite below.) -/
def cleanHeaderText (text : String) : String :=
  pyStrip (String.mk ((text.data.dropWhile (fun c => c = '#')).dropWhile pyIsSpace))

/-- The `level` computed by the `startswith` chain in
`detect_toc_from_headers` (default 1). -/
def headerLevel (text : String) : Nat :=
  if pyStartsWith text "####" then 4
  else if pyStartsWith text "###" then 3
  else if pyStartsWith text "##" then 2
  else 1

/-- One iteration of the `detect_toc_from_headers` loop: build the TOC item
for `header` given the items `toc_items` already emitted. -/
def detectTocStep (toc_items : List TocItem) (header : HeaderRecord) : TocItem :=
  let text := header.text
  let cleaned_text := cleanHeaderText text
  let level := headerLevel text
  let structure_parts : List String :=
    if level = 1 then
      [toString ((toc_items.filter (fun h => h.level == 1)).length + 1)]
    else if level = 2 then
      let parent_sections := (toc_items.filter (fun h => h.level == 1)).length
      let current_l2_count := (toc_items.filter (fun h =>
        h.level == 2 && h.parent_section == some parent_sections)).length
      [toString parent_sections, toString (current_l2_count + 1)]
    else []
  let structure_ : Option String :=
    if structure_parts.isEmpty then none
    else some (String.intercalate "." structure_parts)
  { structure_ := structure_
    title := cleaned_text
    physical_index := header.physical_index
    bbox := header.bbox
    page_no := header.page_no
    level := level
    parent_section :=
      if level = 2 ∧ 0 < (toc_items.filter (fun h => h.level == 1)).length then
        some ((toc_items.filter (fun h => h.level == 1)).length)
      else none }

/-- `detect_toc_from_headers(headers)`: fold the step over the headers in
order; `has_structure` is `len(toc_items) > 0`. -/
def detect_toc_from_headers (headers : List HeaderRecord) : TocDetectResult :=
  let toc_items := headers.foldl (fun acc h => acc ++ [detectTocStep acc h]) []
  { toc_items := toc_items, has_structure := !toc_items.isEmpty }

/-- The normalisation applied to both the query and every candidate text in
`find_text_bbox_in_page`: `re.sub(r'\s+', ' ', s.lower().strip())`. -/
def normalizeText (s : String) : String :=
  collapseWs (pyStrip (pyLower s))

/-- Size of `set(a.split()) & set(b.split())` in Python: the number of
distinct words of `a` that also occur in `b`. -/
def interSize (a b : String) : Nat :=
  (((pySplit a).dedup).filter (fun w => (pySplit b).contains w)).length

/-- The third fuzzy rule of `find_text_bbox_in_page`, on already-normalised
strings: `len(set(q.split()) & set(t.split())) > min(len(q.split()),
len(t.split())) * 0.5`.  Both lengths are raw token-list lengths
(duplicates included); `x > n * 0.5` over exact IEEE halves is `2 * x > n`. -/
def wordOverlapCond (q t : String) : Bool :=
  min (pySplit q).length (pySplit t).length < 2 * interSize q t

/-- The fuzzy-mode test of `find_text_bbox_in_page` on normalised strings:
either containment direction, or the word-overlap rule. -/
def fuzzyMatchCond (search_clean item_clean : String) : Bool :=
  pyContains item_clean search_clean ||
  pyContains search_clean item_clean ||
  wordOverlapCond search_clean item_clean

/-- The item loop of `find_text_bbox_in_page`: skip items missing `text` or
`bbox`; return the first `bbox` whose normalised text passes the active
test. -/
def findBboxLoop (fuzzy_match : Bool) (search_text_clean : String) :
    List LayoutItem → Option (List Int)
  | [] => none
  | item :: rest =>
    match item.text, item.bbox with
    | some t, some b =>
      let item_text_clean := normalizeText t
      if (if fuzzy_match then fuzzyMatchCond search_text_clean item_text_clean
          else search_text_clean == item_text_clean) then some b
      else findBboxLoop fuzzy_match search_text_clean rest
    | _, _ => findBboxLoop fuzzy_match search_text_clean rest

/-- `find_text_bbox_in_page(page_data, search_text, fuzzy_match)`:
`None` when `full_layout_info` is absent, else the first matching item's
bbox.  (The Python default `fuzzy_match=True` is passed explicitly at each
call site below.) -/
def find_text_bbox_in_page (page_data : PageData) (search_text : String)
    (fuzzy_match : Bool) : Option (List Int) :=
  match page_data.full_layout_info with
  | none => none
  | some items =>
    findBboxLoop fuzzy_match (normalizeText search_text) items

/-- Loop body of `enhance_toc_with_bbox` for a single TOC entry.  Note the
Python truthiness test `if bbox:`: a found bbox equal to the empty list
does not augment the entry. -/
def enhanceTocItem (ocr_results : List PageData) (item : TocEntry) : TocEntry :=
  match item.physical_index, item.title with
  | some physical_index, some title =>
    let page_index : Int := physical_index - 1
    if 0 ≤ page_index ∧ page_index < (ocr_results.length : Int) then
      let page_data := ocr_results.getD page_index.toNat
        { page_no := none, full_layout_info := none }
      match find_text_bbox_in_page page_data title true with
      | some bbox =>
        if bbox ≠ [] then
          { item with bbox := some bbox,
                      page_no := some (page_data.page_no.getD page_index) }
        else item
      | none => item
    else item
  | _, _ => item

/-- `enhance_toc_with_bbox(toc_items, ocr_results)`: a fresh list of
per-entry copies, each augmented by `enhanceTocItem`. -/
def enhance_toc_with_bbox (toc_items : List TocEntry)
    (ocr_results : List PageData) : List TocEntry :=
  toc_items.map (enhanceTocItem ocr_results)

/-- The `OCRPageListWrapper` class: its constructor stores the OCR pages
and precomputes `_page_list = get_page_tokens_from_ocr(ocr_results, model)`. -/
structure OCRPageListWrapper where
  ocr_results : List PageData
  page_list : List (String × Nat)

/-- `OCRPageListWrapper.__init__`. -/
def OCRPageListWrapper.init (tok : String → Nat) (ocr_results : List PageData) :
    OCRPageListWrapper :=
  { ocr_results := ocr_results
    page_list := get_page_tokens_from_ocr tok ocr_results }

/-- `OCRPageListWrapper.__len__`. -/
def OCRPageListWrapper.len (w : OCRPageListWrapper) : Nat :=
  w.page_list.length

/-- `OCRPageListWrapper.__getitem__` with an integer index: CPython list
indexing on `_page_list`; `none` models the `IndexError` raised on an
out-of-range index. -/
def OCRPageListWrapper.getitem (w : OCRPageListWrapper) (index : Int) :
    Option (String × Nat) :=
  pyListGet w.page_list index

/-! ### Specification-side characterisations

These definitions restate, in one-shot form, what the specification says
the loops above compute; the refinement theorems below compare them with
the looped source embeddings. -/

/-- Spec side: a layout item qualifies as a section header iff its
category contains `"Section-header"` and it has both `text` and `bbox`. -/
def isSectionHeaderItem (item : LayoutItem) : Bool :=
  item.category.isSome && pyContains (item.category.getD "") "Section-header" &&
  item.text.isSome && item.bbox.isSome

/-- Spec side: the header record derived from a qualifying layout item of a
page with (defaulted) page number `page_no`. -/
def headerOfItem (page_no : Int) (item : LayoutItem) : HeaderRecord :=
  { page_no := page_no
    text := pyStrip (item.text.getD "")
    bbox := item.bbox.getD []
    category := item.category.getD ""
    physical_index := page_no + 1 }

/-- Spec side: all header records of one page, in item order. -/
def pageHeaders (page_data : PageData) : List HeaderRecord :=
  ((page_data.full_layout_info.getD []).filter isSectionHeaderItem).map
    (headerOfItem (page_data.page_no.getD 0))

/-- Spec side: the trimmed, non-empty texts of a page's layout items, in
item order. -/
def pageItemTexts (page_data : PageData) : List String :=
  (((page_data.full_layout_info.getD []).filterMap LayoutItem.text).map pyStrip).filter
    (fun t => t ≠ "")

/-- Spec side: a layout item passes the fuzzy policy for a query iff it has
both `text` and `bbox` and one of the three fuzzy rules holds on the
normalised strings. -/
def fuzzyRuleHolds (search_text : String) (item : LayoutItem) : Bool :=
  match item.text, item.bbox with
  | some t, some _ =>
    pyContains (normalizeText t) (normalizeText search_text) ||
    pyContains (normalizeText search_text) (normalizeText t) ||
    wordOverlapCond (normalizeText search_text) (normalizeText t)
  | _, _ => false

/-- Spec side: a layout item passes the exact policy for a query iff it has
both `text` and `bbox` and its normalised text equals the normalised
query. -/
def exactRuleHolds (search_text : String) (item : LayoutItem) : Bool :=
  match item.text, item.bbox with
  | some t, some _ => normalizeText search_text == normalizeText t
  | _, _ => false

/-! ### Concrete inputs used by counterexamples and witnesses -/

/-- A level-2 header appearing before any level-1 header (used for C1). -/
def c1Header : HeaderRecord :=
  { page_no := 0, text := "## B", bbox := [1, 2, 3, 4],
    category := "Section-header", physical_index := 1 }

/-- A page whose only item repeats the word "a" (used for C2): the raw
token list of "a a a b" has four entries but its word set only two. -/
def c2Page : PageData :=
  { page_no := some 0,
    full_layout_info := some [⟨some "a b c d e", some [1, 2, 3, 4], none⟩] }

/-- A TOC entry whose title occurs on the page (used for C6). -/
def c6Entry : TocEntry :=
  { physical_index := some 1, title := some "x", bbox := none, page_no := none }

/-- A page on which `"x"` matches an item whose recorded bbox is the empty
list (used for C6). -/
def c6Page : PageData :=
  { page_no := none,
    full_layout_info := some [⟨some "x", some [], none⟩] }

/-- A page on which `"x"` matches an item with a real bbox (used by the C6
witness). -/
def c6HitPage : PageData :=
  { page_no := none,
    full_layout_info := some [⟨some "x", some [5, 6, 7, 8], none⟩] }

/-- A page with one section-header item and one body item (used by the C7
witness). -/
def c7Page : PageData :=
  { page_no := some 2,
    full_layout_info := some
      [⟨some " Intro ", some [1, 2, 3, 4], some "Section-header"⟩,
       ⟨some "body", some [5, 6, 7, 8], some "Text"⟩] }

/-- A page mixing blank, missing and real texts (used by the C8 witness). -/
def c8Page : PageData :=
  { page_no := some 0,
    full_layout_info := some
      [⟨some "  a ", none, none⟩, ⟨some "  ", some [1], none⟩,
       ⟨none, none, none⟩, ⟨some "b", none, none⟩] }

/-! ### Helper lemmas -/

theorem findBboxLoop_fuzzy_eq_find? (search_text : String)
    (items : List LayoutItem) :
    findBboxLoop true (normalizeText search_text) items =
      (items.find? (fuzzyRuleHolds search_text)).bind LayoutItem.bbox := by
  induction items with
  | nil => rfl
  | cons item rest ih =>
    obtain ⟨text, bbox, category⟩ := item
    cases text with
    | none => simpa [findBboxLoop, fuzzyRuleHolds, List.find?_cons] using ih
    | some t =>
      cases bbox with
      | none => simpa [findBboxLoop, fuzzyRuleHolds, List.find?_cons] using ih
      | some b =>
        have hrule : fuzzyRuleHolds search_text ⟨some t, some b, category⟩ =
            fuzzyMatchCond (normalizeText search_text) (normalizeText t) := rfl
        rw [List.find?_cons, hrule]
        cases hc : fuzzyMatchCond (normalizeText search_text) (normalizeText t) with
        | true => simp [findBboxLoop, hc]
        | false => simp [findBboxLoop, hc, ih]

theorem extractTextFold_eq (items : List LayoutItem) (acc : List String) :
    items.foldl extractTextStep acc =
      acc ++ (((items.filterMap LayoutItem.text).map pyStrip).filter
        (fun t => t ≠ "")) := by
  induction items generalizing acc with
  | nil => simp
  | cons item rest ih =>
    obtain ⟨text, bbox, category⟩ := item
    rw [List.foldl_cons]
    cases text with
    | none =>
      rw [show extractTextStep acc ⟨none, bbox, category⟩ = acc from rfl, ih]
      simp [List.filterMap_cons]
    | some t =>
      by_cases ht : pyStrip t = ""
      · rw [show extractTextStep acc ⟨some t, bbox, category⟩ = acc from by
          simp [extractTextStep, ht], ih]
        simp [List.filterMap_cons, List.filter_cons, ht]
      · rw [show extractTextStep acc ⟨some t, bbox, category⟩ = acc ++ [pyStrip t] from by
          simp [extractTextStep, ht], ih]
        simp [List.filterMap_cons, List.filter_cons, ht]

theorem sectionHeaderFold_eq (page_no : Int) (items : List LayoutItem)
    (hs : List HeaderRecord) :
    items.foldl (sectionHeaderStep page_no) hs =
      hs ++ (items.filter isSectionHeaderItem).map (headerOfItem page_no) := by
  induction items generalizing hs with
  | nil => simp
  | cons item rest ih =>
    obtain ⟨text, bbox, category⟩ := item
    cases category with
    | none => simp [sectionHeaderStep, isSectionHeaderItem, List.filter_cons, ih]
    | some cat =>
      cases text with
      | none => simp [sectionHeaderStep, isSectionHeaderItem, List.filter_cons, ih]
      | some t =>
        cases bbox with
        | none => simp [sectionHeaderStep, isSectionHeaderItem, List.filter_cons, ih]
        | some b =>
          by_cases hcat : pyContains cat "Section-header" = true
          · simp [sectionHeaderStep, isSectionHeaderItem, List.filter_cons, hcat,
              ih, headerOfItem]
          · simp [sectionHeaderStep, isSectionHeaderItem, List.filter_cons, hcat, ih]

theorem extractHeadersFold_eq (pages : List PageData) (hs : List HeaderRecord) :
    pages.foldl pageHeadersStep hs = hs ++ pages.flatMap pageHeaders := by
  induction pages generalizing hs with
  | nil => simp
  | cons p rest ih =>
    obtain ⟨pn, fli⟩ := p
    rw [List.foldl_cons]
    cases fli with
    | none =>
      rw [show pageHeadersStep hs ⟨pn, none⟩ = hs from rfl, ih]
      simp [pageHeaders]
    | some items =>
      rw [show pageHeadersStep hs ⟨pn, some items⟩
            = items.foldl (sectionHeaderStep (pn.getD 0)) hs from rfl,
        sectionHeaderFold_eq, ih]
      simp [pageHeaders, List.append_assoc]

theorem detectFold_no_level1 (headers : List HeaderRecord) :
    ∀ acc : List TocItem,
      (∀ n ∈ acc, n.level ≠ 1 ∧ n.parent_section = none) →
      (∀ p ∈ headers, headerLevel p.text ≠ 1) →
      ∀ n ∈ headers.foldl (fun a h => a ++ [detectTocStep a h]) acc,
        n.level ≠ 1 ∧ n.parent_section = none := by
  induction headers with
  | nil => intro acc hacc _ n hn; exact hacc n hn
  | cons h rest ih =>
    intro acc hacc hh n hn
    rw [List.foldl_cons] at hn
    refine ih (acc ++ [detectTocStep acc h]) ?_
      (fun p hp => hh p (List.mem_cons_of_mem _ hp)) n hn
    intro m hm
    rcases List.mem_append.mp hm with hm | hm
    · exact hacc m hm
    · have hms : m = detectTocStep acc h := by simpa using hm
      subst hms
      have hfil : (acc.filter (fun x => x.level == 1)) = [] := by
        rw [List.filter_eq_nil_iff]
        intro a ha
        simpa using (hacc a ha).1
      constructor
      · have := hh h (List.mem_cons_self h rest)
        simpa [detectTocStep] using this
      · simp [detectTocStep, hfil]

theorem detectTocStep_pre (acc : List TocItem) (h : HeaderRecord)
    (hacc : ∀ n ∈ acc, n.level ≠ 1 ∧ n.parent_section = none)
    (hlvl : headerLevel h.text = 2) :
    (detectTocStep acc h).structure_ = some "0.1" ∧
    (detectTocStep acc h).parent_section = none := by
  have hfil : (acc.filter (fun x => x.level == 1)) = [] := by
    rw [List.filter_eq_nil_iff]
    intro a ha
    simpa using (hacc a ha).1
  have hfil2 : (acc.filter (fun x =>
      x.level == 2 && x.parent_section == some 0)) = [] := by
    rw [List.filter_eq_nil_iff]
    intro a ha
    simp [(hacc a ha).2]
  unfold detectTocStep
  dsimp only
  rw [hlvl, hfil]
  simp only [List.length_nil]
  rw [hfil2]
  norm_num
  decide

theorem dedup_toFinset (l : List String) : l.dedup.toFinset = l.toFinset := by
  ext a
  simp [List.mem_toFinset, List.mem_dedup]

theorem interSize_eq_card (a b : String) :
    interSize a b = ((pySplit a).toFinset ∩ (pySplit b).toFinset).card := by
  have hnodup : ((pySplit a).dedup.filter
      (fun w => (pySplit b).contains w)).Nodup :=
    (List.nodup_dedup _).filter _
  unfold interSize
  rw [← List.toFinset_card_of_nodup hnodup]
  congr 1
  ext w
  simp [List.mem_toFinset, List.mem_filter, List.mem_dedup, Finset.mem_inter,
    List.contains, List.elem_iff]

theorem get_page_tokens_length (tok : String → Nat) (pages : List PageData) :
    (get_page_tokens_from_ocr tok pages).length = pages.length := by
  simp [get_page_tokens_from_ocr]

theorem findBboxLoop_exact_eq_find? (search_text : String)
    (items : List LayoutItem) :
    findBboxLoop false (normalizeText search_text) items =
      (items.find? (exactRuleHolds search_text)).bind LayoutItem.bbox := by
  induction items with
  | nil => rfl
  | cons item rest ih =>
    obtain ⟨text, bbox, category⟩ := item
    cases text with
    | none => simpa [findBboxLoop, exactRuleHolds, List.find?_cons] using ih
    | some t =>
      cases bbox with
      | none => simpa [findBboxLoop, exactRuleHolds, List.find?_cons] using ih
      | some b =>
        have hrule : exactRuleHolds search_text ⟨some t, some b, category⟩ =
            (normalizeText search_text == normalizeText t) := rfl
        rw [List.find?_cons, hrule]
        cases hc : (normalizeText search_text == normalizeText t) with
        | true => simp [findBboxLoop, hc]
        | false => simp [findBboxLoop, hc, ih]

/-! ### Claim theorems -/

/-- C3: the Hierarchy Inferencer applied to the four headers with texts
"# A", "## B", "## C", "# D" (whatever their pages, boxes, categories and
physical indices) emits four TOC nodes, in input order, with structure
paths "1", "1.1", "1.2", "2", titles "A", "B", "C", "D", parent-section 1
on the two level-2 nodes and none on the others, and with each node's
physical index that of its header. -/
theorem C3_hierarchy_four_headers
    (b1 b2 b3 b4 : List Int) (c1 c2 c3 c4 : String)
    (n1 n2 n3 n4 p1 p2 p3 p4 : Int) :
    (detect_toc_from_headers
        [{ page_no := n1, text := "# A", bbox := b1, category := c1,
           physical_index := p1 },
         { page_no := n2, text := "## B", bbox := b2, category := c2,
           physical_index := p2 },
         { page_no := n3, text := "## C", bbox := b3, category := c3,
           physical_index := p3 },
         { page_no := n4, text := "# D", bbox := b4, category := c4,
           physical_index := p4 }]).toc_items.map
      (fun node => (node.structure_, node.title, node.parent_section,
        node.physical_index)) =
    [(some "1", "A", none, p1), (some "1.1", "B", some 1, p2),
     (some "1.2", "C", some 1, p3), (some "2", "D", none, p4)] := by
  simp +decide [detect_toc_from_headers, detectTocStep]

/-- C4: in fuzzy mode, `find_text_bbox_in_page` returns the bbox of the
first layout item (in original order) that has both `text` and `bbox` and
satisfies one of the three fuzzy rules, and `none` when no item qualifies
or the page has no `full_layout_info`. -/
theorem C4_fuzzy_first_match (page_data : PageData) (search_text : String) :
    find_text_bbox_in_page page_data search_text true =
      page_data.full_layout_info.bind
        (fun items =>
          (items.find? (fuzzyRuleHolds search_text)).bind LayoutItem.bbox) := by
  cases h : page_data.full_layout_info with
  | none => simp [find_text_bbox_in_page, h]
  | some items =>
    simp [find_text_bbox_in_page, h, findBboxLoop_fuzzy_eq_find?]

/-- C5: in exact mode, `find_text_bbox_in_page` returns the bbox of the
first layout item whose normalised text equals the normalised query, items
lacking `text` or `bbox` never being considered, and `none` when no such
item exists. -/
theorem C5_exact_first_match (page_data : PageData) (search_text : String) :
    find_text_bbox_in_page page_data search_text false =
      page_data.full_layout_info.bind
        (fun items =>
          (items.find? (exactRuleHolds search_text)).bind LayoutItem.bbox) := by
  cases h : page_data.full_layout_info with
  | none => simp [find_text_bbox_in_page, h]
  | some items =>
    simp [find_text_bbox_in_page, h, findBboxLoop_exact_eq_find?]

/-- C7: the Header Locator emits, in page-then-item order, exactly one
header record per layout item whose category contains "Section-header" and
which has both `text` and `bbox`; and every emitted record's physical
index is its recorded page number plus one. -/
theorem C7_header_locator (ocr_results : List PageData) :
    extract_section_headers_with_bbox ocr_results =
      ocr_results.flatMap pageHeaders ∧
    ∀ h ∈ extract_section_headers_with_bbox ocr_results,
      h.physical_index = h.page_no + 1 := by
  have hmain : extract_section_headers_with_bbox ocr_results =
      ocr_results.flatMap pageHeaders := by
    unfold extract_section_headers_with_bbox
    simpa using extractHeadersFold_eq ocr_results []
  refine ⟨hmain, ?_⟩
  intro h hmem
  rw [hmain] at hmem
  rcases List.mem_flatMap.mp hmem with ⟨page, _, hpage⟩
  rcases List.mem_map.mp hpage with ⟨item, _, hitem⟩
  subst hitem
  rfl

/-- C8: the Page Text Extractor returns exactly the trimmed, non-empty
text fields of the page's layout items, in original item order, joined by
newline; a page with no `full_layout_info`, or with no qualifying item,
yields the empty string (and the function is total: it never raises). -/
theorem C8_page_text_extractor (page_data : PageData) :
    extract_text_from_ocr_page page_data =
      String.intercalate "\n" (pageItemTexts page_data) ∧
    (page_data.full_layout_info = none →
      extract_text_from_ocr_page page_data = "") ∧
    (pageItemTexts page_data = [] →
      extract_text_from_ocr_page page_data = "") := by
  have hmain : extract_text_from_ocr_page page_data =
      String.intercalate "\n" (pageItemTexts page_data) := by
    cases h : page_data.full_layout_info with
    | none => simp [extract_text_from_ocr_page, pageItemTexts, h]
    | some items =>
      simp only [extract_text_from_ocr_page, pageItemTexts, h, Option.getD_some]
      rw [extractTextFold_eq items []]
      simp
  refine ⟨hmain, fun hnone => ?_, fun hempty => ?_⟩
  · rw [hmain]
    unfold pageItemTexts
    rw [hnone]
    rfl
  · rw [hmain, hempty]
    rfl

/-- C9: the Paged Token View's length equals the input page count, each
in-range index `i` yields the pair whose text is the Page Text Extractor
output for page `i` (with its token count), and any non-negative index at
or beyond the length fails (the modelled `IndexError`). -/
theorem C9_paged_token_view (tok : String → Nat) (ocr_results : List PageData) :
    (OCRPageListWrapper.init tok ocr_results).len = ocr_results.length ∧
    (∀ (i : Nat) (hi : i < ocr_results.length),
      (OCRPageListWrapper.init tok ocr_results).getitem (i : Int) =
        some (extract_text_from_ocr_page ocr_results[i],
          tok (extract_text_from_ocr_page ocr_results[i]))) ∧
    (∀ i : Int, (ocr_results.length : Int) ≤ i →
      (OCRPageListWrapper.init tok ocr_results).getitem i = none) := by
  refine ⟨?_, ?_, ?_⟩
  · simp [OCRPageListWrapper.len, OCRPageListWrapper.init,
      get_page_tokens_from_ocr]
  · intro i hi
    simp only [OCRPageListWrapper.getitem, OCRPageListWrapper.init, pyListGet]
    rw [if_pos (Int.natCast_nonneg i), Int.toNat_natCast]
    unfold get_page_tokens_from_ocr
    rw [List.getElem?_map, List.getElem?_eq_getElem hi]
    rfl
  · intro i hile
    have h0 : 0 ≤ i := le_trans (Int.natCast_nonneg _) hile
    simp only [OCRPageListWrapper.getitem, OCRPageListWrapper.init, pyListGet]
    rw [if_pos h0]
    apply List.getElem?_eq_none
    rw [get_page_tokens_length tok ocr_results]
    omega

/-- C9 witness: the theorem applied to a concrete counter and page list. -/
theorem C9_witness :
    (OCRPageListWrapper.init String.length
        [{ page_no := some 0,
           full_layout_info := some [⟨some "hi", some [1, 2, 3, 4], none⟩] }]).getitem 0 =
      some ("hi", 2) ∧
    (OCRPageListWrapper.init String.length
        [{ page_no := some 0,
           full_layout_info := some [⟨some "hi", some [1, 2, 3, 4], none⟩] }]).getitem 1 =
      none := by
  obtain ⟨-, hmid, hhigh⟩ := C9_paged_token_view String.length
    [{ page_no := some 0,
       full_layout_info := some [⟨some "hi", some [1, 2, 3, 4], none⟩] }]
  refine ⟨?_, hhigh 1 (by decide)⟩
  have h := hmid 0 (by decide)
  rw [show ((0 : Nat) : Int) = (0 : Int) from rfl] at h
  rw [h]
  decide

/-- C10: (implicit Python behaviour) a negative index `i` with
`-n ≤ i ≤ -1` does not fail: it returns the pair at position `n + i`;
indices below `-n`, and non-negative indices at or beyond `n`, fail. -/
theorem C10_negative_indexing (tok : String → Nat) (ocr_results : List PageData) :
    (∀ i : Int, -(ocr_results.length : Int) ≤ i → i ≤ -1 →
      (OCRPageListWrapper.init tok ocr_results).getitem i =
        (OCRPageListWrapper.init tok
          ocr_results).page_list[((ocr_results.length : Int) + i).toNat]? ∧
      ((OCRPageListWrapper.init tok ocr_results).getitem i).isSome = true) ∧
    (∀ i : Int, i < -(ocr_results.length : Int) →
      (OCRPageListWrapper.init tok ocr_results).getitem i = none) ∧
    (∀ i : Int, (ocr_results.length : Int) ≤ i →
      (OCRPageListWrapper.init tok ocr_results).getitem i = none) := by
  have hlen : (OCRPageListWrapper.init tok ocr_results).page_list.length =
      ocr_results.length := get_page_tokens_length tok ocr_results
  refine ⟨?_, ?_, ?_⟩
  · intro i hlo hhi
    have hneg : ¬(0 ≤ i) := by omega
    have hcond : -((OCRPageListWrapper.init tok
        ocr_results).page_list.length : Int) ≤ i := by
      rw [hlen]; exact hlo
    have hgetit : (OCRPageListWrapper.init tok ocr_results).getitem i =
        (OCRPageListWrapper.init tok
          ocr_results).page_list[((ocr_results.length : Int) + i).toNat]? := by
      simp only [OCRPageListWrapper.getitem, pyListGet]
      rw [if_neg hneg, if_pos hcond, hlen]
    refine ⟨hgetit, ?_⟩
    rw [hgetit]
    have hidx : ((ocr_results.length : Int) + i).toNat <
        (OCRPageListWrapper.init tok ocr_results).page_list.length := by
      rw [hlen]; omega
    rw [List.getElem?_eq_getElem hidx]
    rfl
  · intro i hbelow
    have hneg : ¬(0 ≤ i) := by omega
    have hcond : ¬(-((OCRPageListWrapper.init tok
        ocr_results).page_list.length : Int) ≤ i) := by
      rw [hlen]; omega
    simp only [OCRPageListWrapper.getitem, pyListGet]
    rw [if_neg hneg, if_neg hcond]
  · intro i hile
    have h0 : 0 ≤ i := le_trans (Int.natCast_nonneg _) hile
    simp only [OCRPageListWrapper.getitem, pyListGet]
    rw [if_pos h0]
    apply List.getElem?_eq_none
    rw [hlen]
    omega

/-- C10 witness: index -1 on a two-page view returns the last pair;
index -3 fails; index 2 fails. -/
theorem C10_witness :
    (OCRPageListWrapper.init String.length
        [{ page_no := some 0, full_layout_info := some [⟨some "a", some [1], none⟩] },
         { page_no := some 1, full_layout_info := some [⟨some "bc", some [2], none⟩] }]).getitem
      (-1) = some ("bc", 2) ∧
    (OCRPageListWrapper.init String.length
        [{ page_no := some 0, full_layout_info := some [⟨some "a", some [1], none⟩] },
         { page_no := some 1, full_layout_info := some [⟨some "bc", some [2], none⟩] }]).getitem
      (-3) = none := by
  obtain ⟨hmid, hbelow, -⟩ := C10_negative_indexing String.length
    [{ page_no := some 0, full_layout_info := some [⟨some "a", some [1], none⟩] },
     { page_no := some 1, full_layout_info := some [⟨some "bc", some [2], none⟩] }]
  refine ⟨?_, hbelow (-3) (by decide)⟩
  rw [(hmid (-1) (by decide) (by decide)).1]
  decide

/-- C1 counterexample: a single level-2 header ("##" but not "###"),
before any level-1 header, yields a TOC node whose parent-section is
indeed absent, but whose structure path is `"0.1"`, NOT absent as the
claim states (the Python `structure_parts` list `['0','1']` is non-empty,
so its dot-join is assigned). -/
theorem C1_counterexample :
    pyStartsWith c1Header.text "##" = true ∧
    pyStartsWith c1Header.text "###" = false ∧
    (detect_toc_from_headers [c1Header]).toc_items.map
      (fun node => (node.structure_, node.parent_section)) =
      [(some "0.1", none)] := by
  decide

/-- C1 amended: for every header sequence in which a level-2 header
appears with no level-1 header anywhere before it, the TOC node produced
for that header has no parent-section field and its structure path is
`"0.1"` (present, with parent ordinal 0). -/
theorem C1_amended (prior : List HeaderRecord) (h : HeaderRecord)
    (hprior : ∀ p ∈ prior, headerLevel p.text ≠ 1)
    (hlvl : headerLevel h.text = 2) :
    ∃ node : TocItem,
      (detect_toc_from_headers (prior ++ [h])).toc_items.getLast? = some node ∧
      node.structure_ = some "0.1" ∧
      node.parent_section = none := by
  have hAinv := detectFold_no_level1 prior ([] : List TocItem)
    (by intro n hn; simp at hn) hprior
  refine ⟨detectTocStep
    (prior.foldl (fun a h => a ++ [detectTocStep a h]) ([] : List TocItem)) h,
    ?_, ?_, ?_⟩
  · have hsplit : (detect_toc_from_headers (prior ++ [h])).toc_items =
        (prior.foldl (fun a h => a ++ [detectTocStep a h]) ([] : List TocItem)) ++
          [detectTocStep
            (prior.foldl (fun a h => a ++ [detectTocStep a h])
              ([] : List TocItem)) h] := by
      simp only [detect_toc_from_headers, List.foldl_append, List.foldl_cons,
        List.foldl_nil]
    rw [hsplit, List.getLast?_concat]
  · exact (detectTocStep_pre _ h hAinv hlvl).1
  · exact (detectTocStep_pre _ h hAinv hlvl).2

/-- C1 witness: the amended theorem applied to the empty prefix and the
concrete header "## B". -/
theorem C1_witness :
    ((detect_toc_from_headers ([] ++ [c1Header])).toc_items.getLast?).map
        (fun node => (node.structure_, node.parent_section)) =
      some (some "0.1", none) := by
  obtain ⟨node, hlast, hstruct, hparent⟩ := C1_amended [] c1Header
    (by intro p hp; simp at hp) (by decide)
  rw [hlast]
  simp [hstruct, hparent]

/-- C2 counterexample: for the pair ("a a a b", "a b c d e") the claimed
rule fires (the word-set intersection has 2 elements, strictly more than
half the smaller SET size, 2), yet the code's rule does not fire — the
code compares against half the smaller raw token-LIST length,
min(4, 5) = 4 — and the full fuzzy matcher finds no match on the page. -/
theorem C2_counterexample :
    wordOverlapCond "a a a b" "a b c d e" = false ∧
    find_text_bbox_in_page c2Page "a a a b" true = none ∧
    interSize "a a a b" "a b c d e" = 2 ∧
    min ((pySplit "a a a b").toFinset.card) ((pySplit "a b c d e").toFinset.card) <
      2 * ((pySplit "a a a b").toFinset ∩ (pySplit "a b c d e").toFinset).card := by
  decide

/-- C2 amended: the word-overlap rule fires iff the cardinality of the
intersection of the two whitespace-split word SETS strictly exceeds 0.5
times the smaller of the two raw whitespace-split token-LIST lengths
(duplicates included), not of the deduplicated word-set sizes. -/
theorem C2_amended (q t : String) :
    wordOverlapCond q t = true ↔
      ((min (pySplit q).length (pySplit t).length : ℚ) / 2 <
        (((pySplit q).toFinset ∩ (pySplit t).toFinset).card : ℚ)) := by
  unfold wordOverlapCond
  rw [decide_eq_true_iff, interSize_eq_card]
  rw [div_lt_iff₀ (by norm_num : (0 : ℚ) < 2)]
  constructor
  · intro hlt
    exact_mod_cast (by omega :
      min (pySplit q).length (pySplit t).length <
        ((pySplit q).toFinset ∩ (pySplit t).toFinset).card * 2)
  · intro hlt
    have hn : min (pySplit q).length (pySplit t).length <
        ((pySplit q).toFinset ∩ (pySplit t).toFinset).card * 2 := by
      exact_mod_cast hlt
    omega

/-- C6 counterexample: the entry's title "x" does find a fuzzy match on
its page (the matcher returns the recorded bbox, the empty list), yet the
returned entry is NOT augmented — it equals the input entry with no bbox.
Python's `if bbox:` treats the empty list as false, so "an entry with a
match gains a bbox" fails as claimed. -/
theorem C6_counterexample :
    find_text_bbox_in_page c6Page (c6Entry.title.getD "") true = some [] ∧
    enhance_toc_with_bbox [c6Entry] [c6Page] = [c6Entry] ∧
    c6Entry.bbox = none := by
  decide

/-- C6 amended: the TOC Anchoring Service maps each entry of a fresh list
independently (the input list and entries are never mutated — the
embedding is a pure per-entry map); an entry missing `physical_index` or
`title`, or with an out-of-range offset, or whose title finds no fuzzy
match, or whose match yields the EMPTY bbox list (Python truthiness), is
returned equal to the input entry, with no error; an entry whose match
yields a non-empty bbox gains that bbox and the matched page's recorded
`page_no`, falling back to the 0-based offset when the page omits it. -/
theorem C6_amended (toc_items : List TocEntry) (ocr_results : List PageData)
    (i : Nat) (e : TocEntry) (he : toc_items[i]? = some e) :
    ((enhance_toc_with_bbox toc_items ocr_results)[i]? =
      some (enhanceTocItem ocr_results e)) ∧
    (e.physical_index = none ∨ e.title = none →
      enhanceTocItem ocr_results e = e) ∧
    (∀ pidx title, e.physical_index = some pidx → e.title = some title →
      ¬(0 ≤ pidx - 1 ∧ pidx - 1 < (ocr_results.length : Int)) →
      enhanceTocItem ocr_results e = e) ∧
    (∀ pidx title page_data, e.physical_index = some pidx →
      e.title = some title → 0 ≤ pidx - 1 →
      ocr_results[(pidx - 1).toNat]? = some page_data →
      (find_text_bbox_in_page page_data title true = none →
        enhanceTocItem ocr_results e = e) ∧
      (find_text_bbox_in_page page_data title true = some [] →
        enhanceTocItem ocr_results e = e) ∧
      (∀ b, find_text_bbox_in_page page_data title true = some b → b ≠ [] →
        enhanceTocItem ocr_results e =
          { e with bbox := some b,
                   page_no := some (page_data.page_no.getD (pidx - 1)) })) := by
  obtain ⟨epi, eti, ebb, epn⟩ := e
  refine ⟨?_, ?_, ?_, ?_⟩
  · unfold enhance_toc_with_bbox
    rw [List.getElem?_map, he]
    rfl
  · rintro (hpi | hti)
    · simp only at hpi
      subst hpi
      rfl
    · simp only at hti
      subst hti
      cases epi <;> rfl
  · intro pidx title hpi hti hnot
    simp only at hpi hti
    subst hpi
    subst hti
    unfold enhanceTocItem
    dsimp only
    rw [if_neg hnot]
  · intro pidx title page_data hpi hti h0 hpage
    simp only at hpi hti
    subst hpi
    subst hti
    have hlt : (pidx - 1).toNat < ocr_results.length := by
      by_contra hge
      rw [List.getElem?_eq_none (by omega)] at hpage
      exact Option.noConfusion hpage
    have hrange : 0 ≤ pidx - 1 ∧ pidx - 1 < (ocr_results.length : Int) := by
      constructor
      · exact h0
      · omega
    have hgetD : ocr_results.getD (pidx - 1).toNat
        { page_no := none, full_layout_info := none } = page_data := by
      rw [List.getD_eq_getElem?_getD, hpage]
      rfl
    unfold enhanceTocItem
    dsimp only
    rw [if_pos hrange, hgetD]
    refine ⟨?_, ?_, ?_⟩
    · intro hnone
      rw [hnone]
    · intro hempty
      rw [hempty]
      rfl
    · intro b hsome hb
      rw [hsome]
      simp [hb]

/-- C6 witness: the amended theorem applied to a one-entry list and a page
with a real (non-empty) bbox hit: the entry gains the bbox and the
fallback page number 0. -/
theorem C6_witness :
    (enhance_toc_with_bbox [c6Entry] [c6HitPage])[0]? =
      some { physical_index := some 1, title := some "x",
             bbox := some [5, 6, 7, 8], page_no := some 0 } := by
  obtain ⟨h1, -, -, h4⟩ := C6_amended [c6Entry] [c6HitPage] 0 c6Entry rfl
  rw [h1]
  have hstep := (h4 1 "x" c6HitPage rfl rfl (by decide) (by decide)).2.2
    [5, 6, 7, 8] (by decide) (by decide)
  rw [hstep]
  decide

/-- C7 witness: the header locator applied to a concrete page: only the
"Section-header" item is kept, trimmed, with physical index 3 = 2 + 1. -/
theorem C7_witness :
    extract_section_headers_with_bbox [c7Page] =
      [{ page_no := 2, text := "Intro", bbox := [1, 2, 3, 4],
         category := "Section-header", physical_index := 3 }] := by
  rw [(C7_header_locator [c7Page]).1]
  decide

/-- C8 witness: the extractor applied to a concrete page keeps "a" and
"b" only, and a page with no layout data yields the empty string. -/
theorem C8_witness :
    extract_text_from_ocr_page c8Page = "a\nb" ∧
    extract_text_from_ocr_page { page_no := some 0, full_layout_info := none } =
      "" := by
  constructor
  · rw [(C8_page_text_extractor c8Page).1]
    decide
  · exact (C8_page_text_extractor _).2.1 rfl
